import Mathlib

/-!
Verification of the `ryu` runtime schema-validation library.

The development shallowly embeds the latest version of the source
(`src/v1/index.ts` base class, `src/v1/schemas/{string,number,boolean,object,array}.ts`,
`src/v1/type.ts`) in Lean:

* JavaScript runtime values are modelled by the inductive `Value`
  (`undefined`, `null`, booleans, numbers, strings, arrays, objects).
  Numbers are modelled as `Int`: the library only ever compares numbers
  (`<`, `>`, `>=`) and never performs arithmetic, so the model is faithful
  on integer-valued inputs; all concrete inputs used below are integers.
  String length is Lean's character count, matching JavaScript's UTF-16
  `length` on the basic-multilingual-plane strings used throughout.
* The per-class configuration state (the private fields of `RyuString`,
  `RyuNum`, `RyuBool`) is modelled by structures with the same field names.
* Chain methods that can raise a code-2 configuration error return
  `Except RyuError`; the others return the updated record (in the source
  they mutate `this` and return it).
* `parse` raising a `RyuError` is modelled as `Except.error`;
  `new Error().stack` is an opaque runtime string, modelled by the fixed
  token `errStack` (only its propagation is ever specified).
-/

/-- A path segment: a field name or an array index
    (TypeScript `(string | number)[]` entries). -/
inductive Seg where
  | s (v : String)
  | i (n : Nat)
deriving DecidableEq, Repr

/-- A path into the input value tree. -/
abbrev RyuPath := List Seg

/-- `RyuError` from `src/v1/type.ts`:
    `{ code: number; message: string; path?: (string|number)[]; stack?: string }`. -/
structure RyuError where
  code : Nat
  message : String
  path : Option RyuPath
  stack : Option String
deriving DecidableEq, Repr

/-- Stand-in for the runtime-dependent string `new Error().stack`. -/
def errStack : String := "stack"

/-- JavaScript runtime values, as far as the library can observe them. -/
inductive Value where
  | undefined
  | null
  | bool (b : Bool)
  | num (n : Int)
  | str (s : String)
  | arr (l : List Value)
  | obj (fields : List (String × Value))

/-- `data === undefined || data === null`. -/
def Value.isNullish : Value → Bool
  | .undefined => true
  | .null => true
  | _ => false

/-- `typeof data === "object" && data` — true for objects and arrays,
    false for `null` and every primitive. -/
def Value.isObjectLike : Value → Bool
  | .obj _ => true
  | .arr _ => true
  | _ => false

/-- `Array.isArray(data)`. -/
def Value.isArr : Value → Bool
  | .arr _ => true
  | _ => false

/-- `x ?? null`: nullish coalescing of a value with `null`. -/
def nullCoalesce : Value → Value
  | .undefined => .null
  | .null => .null
  | v => v

/-- First-match lookup of a property in an object's field list. -/
def lookupField : List (String × Value) → String → Value
  | [], _ => .undefined
  | (k, w) :: rest, key => if k = key then w else lookupField rest key

/-- JavaScript property access `(data as any)[key]` on an object-like value,
    as used by `RyuObj.parse`. Objects yield the named field (or `undefined`);
    arrays yield the element at a canonical numeric index, their `length`,
    and `undefined` otherwise (inherited prototype methods are not modelled —
    no schema in this development can accept a function value anyway). -/
def getField (v : Value) (key : String) : Value :=
  match v with
  | .obj fields => lookupField fields key
  | .arr l =>
      if key = "length" then .num l.length
      else
        match key.toNat? with
        | some i => if toString i = key then l.getD i .undefined else .undefined
        | none => .undefined
  | _ => .undefined

/-- The `catch` block of the composite nodes:
    `if (!err.path) err.path = [...path, key]` — an empty array is truthy in
    JavaScript, so the path is filled in only when it is absent. -/
def fillPath (e : RyuError) (q : RyuPath) : RyuError :=
  match e.path with
  | none => { e with path := some q }
  | some _ => e

/-- `code: 1` validation error as thrown by every `parse`/`internalParse`
    site: `{ code: 1, message, path, stack: new Error().stack }`. -/
def err1 (msg : String) (p : RyuPath) : RyuError :=
  ⟨1, msg, some p, some errStack⟩

/-- `code: 2` configuration error as thrown by the mutually-exclusive chain
    methods: `{ code: 2, message, path: [], stack: new Error().stack }`. -/
def err2 (msg : String) : RyuError :=
  ⟨2, msg, some [], some errStack⟩

/-! ### The regular-expression tests of `RyuString.email` / `RyuString.url`

The two regexes are fixed literals; their semantics are decided directly.
-/

/-- Character class `[A-Za-z0-9._%+-]` (the local part of the email regex). -/
def emailLocalChar (c : Char) : Bool :=
  c.isAlpha || c.isDigit || c = '.' || c = '_' || c = '%' || c = '+' || c = '-'

/-- Character class `[A-Za-z0-9.-]` (the domain part of the email regex). -/
def emailDomainChar (c : Char) : Bool :=
  c.isAlpha || c.isDigit || c = '.' || c = '-'

/-- `\w` plus `-`: character class `[\w-]` of the url regex. -/
def hostChar (c : Char) : Bool :=
  c.isAlpha || c.isDigit || c = '_' || c = '-'

/-- Character class `[\w-./?%&=]` (the path part of the url regex). -/
def pathChar (c : Char) : Bool :=
  c.isAlpha || c.isDigit || c = '_' || c = '-' || c = '.' || c = '/' ||
  c = '?' || c = '%' || c = '&' || c = '='

/-- Decides `/^[A-Za-z0-9._%+-]+@[A-Za-z0-9.-]+\.[A-Za-z]{2,}$/.test s`:
    the string splits at its unique `@` (neither class contains `@`), and the
    domain splits at its last dot into a non-empty `[A-Za-z0-9.-]+` part and a
    trailing all-letter label of length at least 2 (the label after the
    matching dot is all letters, hence contains no further dot). -/
def emailRegexTest (s : String) : Bool :=
  match s.splitOn "@" with
  | [local_, domain] =>
      local_.length > 0 && local_.toList.all emailLocalChar &&
      (let cs := domain.toList
       let tldRev := cs.reverse.takeWhile (fun c => c ≠ '.')
       if tldRev.length = cs.length then false
       else
         let front := cs.take (cs.length - tldRev.length - 1)
         let tld := tldRev.reverse
         front.length > 0 && front.all emailDomainChar &&
           tld.length ≥ 2 && tld.all Char.isAlpha)
  | _ => false

/-- Host part `([\w-]+\.)+[\w-]{2,}` of the url regex: dot-separated non-empty
    `[\w-]` labels, at least two of them, the last of length at least 2. -/
def urlHostTest (cs : List Char) : Bool :=
  let labels := (String.mk cs).splitOn "."
  labels.length ≥ 2 &&
    labels.all (fun lab => lab.length > 0 && lab.toList.all hostChar) &&
    (labels.getLastD "").length ≥ 2

/-- Decides `/^(https?:\/\/)?([\w-]+\.)+[\w-]{2,}(\/[\w-./?%&=]*)?$/.test s`:
    the optional scheme is forced whenever present (no other class matches
    `:`), the host runs to the first `/` (no host character is `/`), and the
    rest must be the optional `(\/[\w-./?%&=]*)` path group. -/
def urlRegexTest (s : String) : Bool :=
  let body :=
    if s.startsWith "https://" then s.drop 8
    else if s.startsWith "http://" then s.drop 7
    else s
  let cs := body.toList
  let host := cs.takeWhile (fun c => c ≠ '/')
  let rest := cs.drop host.length
  urlHostTest host && (rest.isEmpty || rest.all pathChar)

/-- `String.prototype.includes`: substring containment. -/
def jsIncludes (s sub : String) : Bool :=
  (List.range (s.length + 1)).any (fun i => sub.toList.isPrefixOf (s.toList.drop i))

/-! ### `RyuString` (src/v1/schemas/string.ts, latest version) -/

/-- The two mutually exclusive string constraint families. -/
inductive StrConstraintType where
  | range
  | length
deriving DecidableEq, Repr

/-- Configuration state of a `RyuString` node: its private fields.
    Each constraint field holds `(val, errorMsg)` when set. -/
structure RyuString where
  constraintType : Option StrConstraintType
  _min : Option (Int × String)
  _max : Option (Int × String)
  _length : Option (Int × String)
  _includes : Option (String × String)
  _startsWith : Option (String × String)
  _endsWith : Option (String × String)
  _email : Option String
  _url : Option String
deriving DecidableEq, Repr

/-- `new RyuString()`: every constraint field starts out unset. -/
def mkRyuString : RyuString :=
  ⟨none, none, none, none, none, none, none, none, none⟩

namespace RyuString

/-- `RyuString._minImpl(len, errorMsg?)`: rejects with a code-2 error when a
    fixed `length()` is already set, otherwise records the `range` state and
    the minimum with its (default or overridden) message. -/
def _minImpl (ss : RyuString) (len : Int) (errorMsg : Option String) :
    Except RyuError RyuString :=
  if ss.constraintType = some .length then
    .error (err2 "Cannot use min() when a fixed length() has already been set.")
  else
    .ok { ss with
          constraintType := some .range,
          _min := some (len, errorMsg.getD
            ("String must have " ++ toString len ++ " characters")) }

/-- `RyuString._maxImpl(len, errorMsg?)`. -/
def _maxImpl (ss : RyuString) (len : Int) (errorMsg : Option String) :
    Except RyuError RyuString :=
  if ss.constraintType = some .length then
    .error (err2 "Cannot use max() when a fixed length() has already been set.")
  else
    .ok { ss with
          constraintType := some .range,
          _max := some (len, errorMsg.getD
            ("String must be less than " ++ toString len ++ " characters")) }

/-- `RyuString._lengthImpl(len, errorMsg?)`. -/
def _lengthImpl (ss : RyuString) (len : Int) (errorMsg : Option String) :
    Except RyuError RyuString :=
  if ss.constraintType = some .range then
    .error (err2 "Cannot use length() when min() or max() has already been set.")
  else
    .ok { ss with
          constraintType := some .length,
          _length := some (len, errorMsg.getD
            ("String must contain " ++ toString len ++ " characters")) }

/-- `RyuString.includes(val, errorMsg?)` (never conflicts). -/
def includes (ss : RyuString) (val : String) (errorMsg : Option String) : RyuString :=
  { ss with _includes := some (val, errorMsg.getD ("String must include " ++ val)) }

/-- `RyuString.startsWith(val, errorMsg?)`. -/
def startsWith (ss : RyuString) (val : String) (errorMsg : Option String) : RyuString :=
  { ss with _startsWith := some (val, errorMsg.getD ("String must start with " ++ val)) }

/-- `RyuString.endsWith(val, errorMsg?)`. -/
def endsWith (ss : RyuString) (val : String) (errorMsg : Option String) : RyuString :=
  { ss with _endsWith := some (val, errorMsg.getD ("String must end with " ++ val)) }

/-- `RyuString.email(errorMsg?)`. -/
def email (ss : RyuString) (errorMsg : Option String) : RyuString :=
  { ss with _email := some (errorMsg.getD "Invalid email") }

/-- `RyuString.url(errorMsg?)`. -/
def url (ss : RyuString) (errorMsg : Option String) : RyuString :=
  { ss with _url := some (errorMsg.getD "Invalid url") }

/-- The message of the first failing constraint check of `RyuString.parse`
    on a string input, following the source's `if` cascade in order. -/
def firstFail (ss : RyuString) (data : String) : Option String :=
  (ss._min.bind fun m => if (data.length : Int) < m.1 then some m.2 else none) <|>
  (ss._max.bind fun m => if (data.length : Int) > m.1 then some m.2 else none) <|>
  (ss._length.bind fun m => if (data.length : Int) ≠ m.1 then some m.2 else none) <|>
  (ss._includes.bind fun m => if !(jsIncludes data m.1) then some m.2 else none) <|>
  (ss._startsWith.bind fun m => if !(data.startsWith m.1) then some m.2 else none) <|>
  (ss._endsWith.bind fun m => if !(data.endsWith m.1) then some m.2 else none) <|>
  (ss._email.bind fun msg => if !(emailRegexTest data) then some msg else none) <|>
  (ss._url.bind fun msg => if !(urlRegexTest data) then some msg else none)

/-- `RyuString.parse(data, path = ["value"])`: the type check followed by the
    configured constraint checks in source order; the first failing check
    throws `{code: 1, message, path, stack}`, success returns the input
    string unchanged. -/
def parse (ss : RyuString) (p : RyuPath) (v : Value) : Except RyuError String :=
  match v with
  | .str data =>
      match ss.firstFail data with
      | some msg => .error (err1 msg p)
      | none => .ok data
  | _ => .error (err1 "Expected string" p)

end RyuString

/-! ### `RyuNum` (src/v1/schemas/number.ts, latest version) -/

/-- The two mutually exclusive number sign constraints. -/
inductive NumConstraintType where
  | positive
  | negative
deriving DecidableEq, Repr

/-- Configuration state of a `RyuNum` node. `_positive`/`_negative` hold
    `(val, errorMsg)` with `val` always written `true` and never read back. -/
structure RyuNum where
  constraintType : Option NumConstraintType
  _min : Option (Int × String)
  _max : Option (Int × String)
  _positive : Option (Bool × String)
  _negative : Option (Bool × String)
deriving DecidableEq, Repr

/-- `new RyuNum()`. -/
def mkRyuNum : RyuNum := ⟨none, none, none, none, none⟩

namespace RyuNum

/-- `RyuNum.min(len, errorMsg?)` (plain chain method, no exclusion check). -/
def min (ns : RyuNum) (len : Int) (errorMsg : Option String) : RyuNum :=
  { ns with _min := some (len, errorMsg.getD ("Too small (min " ++ toString len ++ ")")) }

/-- `RyuNum.max(len, errorMsg?)`. -/
def max (ns : RyuNum) (len : Int) (errorMsg : Option String) : RyuNum :=
  { ns with _max := some (len, errorMsg.getD ("Too large (max " ++ toString len ++ ")")) }

/-- `RyuNum._positiveImpl(errorMsg?)`: code-2 error after `negative()`,
    otherwise records the `positive` state. -/
def _positiveImpl (ns : RyuNum) (errorMsg : Option String) : Except RyuError RyuNum :=
  if ns.constraintType = some .negative then
    .error (err2 "Cannot use positive() when negative() has already been set")
  else
    .ok { ns with
          constraintType := some .positive,
          _positive := some (true, errorMsg.getD "Should be positive") }

/-- `RyuNum._negativeImpl(errorMsg?)`: code-2 error after `positive()`.
    Note the source's default message for `negative()` is the literal
    `"Should be positive"`. -/
def _negativeImpl (ns : RyuNum) (errorMsg : Option String) : Except RyuError RyuNum :=
  if ns.constraintType = some .positive then
    .error (err2 "Cannot use negative() when positive() has already been set")
  else
    .ok { ns with
          constraintType := some .negative,
          _negative := some (true, errorMsg.getD "Should be positive") }

/-- The message of the first failing constraint check of `RyuNum.parse`
    on a number input: `data < min.val`, `data > max.val`,
    `positive && data < 0`, `negative && data >= 0`, in source order. -/
def firstFail (ns : RyuNum) (data : Int) : Option String :=
  (ns._min.bind fun m => if data < m.1 then some m.2 else none) <|>
  (ns._max.bind fun m => if data > m.1 then some m.2 else none) <|>
  (ns._positive.bind fun m => if data < 0 then some m.2 else none) <|>
  (ns._negative.bind fun m => if data ≥ 0 then some m.2 else none)

/-- `RyuNum.parse(data, path = ["value"])`: the type check, then the
    configured checks in source order. -/
def parse (ns : RyuNum) (p : RyuPath) (v : Value) : Except RyuError Int :=
  match v with
  | .num data =>
      match ns.firstFail data with
      | some msg => .error (err1 msg p)
      | none => .ok data
  | _ => .error (err1 "Expected number" p)

end RyuNum

/-! ### `RyuBool` (src/v1/schemas/boolean.ts) -/

/-- The two mutually exclusive boolean constraints. -/
inductive BoolConstraintType where
  | isTrue
  | isFalse
deriving DecidableEq, Repr

/-- Configuration state of a `RyuBool` node; `_true`/`_false` hold the
    error message when set. -/
structure RyuBool where
  constraintType : Option BoolConstraintType
  _true : Option String
  _false : Option String
deriving DecidableEq, Repr

/-- `new RyuBool()`. -/
def mkRyuBool : RyuBool := ⟨none, none, none⟩

namespace RyuBool

/-- `RyuBool._trueImpl(errorMsg?)`. -/
def _trueImpl (bs : RyuBool) (errorMsg : Option String) : Except RyuError RyuBool :=
  if bs.constraintType = some .isFalse then
    .error (err2 "Cannot use true() when false() is already set")
  else
    .ok { bs with
          constraintType := some .isTrue,
          _true := some (errorMsg.getD "Should be true") }

/-- `RyuBool._falseImpl(errorMsg?)`. -/
def _falseImpl (bs : RyuBool) (errorMsg : Option String) : Except RyuError RyuBool :=
  if bs.constraintType = some .isTrue then
    .error (err2 "Cannot use false() when true() is already set")
  else
    .ok { bs with
          constraintType := some .isFalse,
          _false := some (errorMsg.getD "Should be false") }

/-- The message of the first failing constraint check of
    `RyuBool.internalParse` on a boolean input. -/
def firstFail (bs : RyuBool) (data : Bool) : Option String :=
  (bs._true.bind fun msg => if data ≠ true then some msg else none) <|>
  (bs._false.bind fun msg => if data ≠ false then some msg else none)

/-- `RyuBool.internalParse(data, path = ["value"])`. -/
def internalParse (bs : RyuBool) (p : RyuPath) (v : Value) : Except RyuError Bool :=
  match v with
  | .bool data =>
      match bs.firstFail data with
      | some msg => .error (err1 msg p)
      | none => .ok data
  | _ => .error (err1 "Expected boolean" p)

end RyuBool

/-! ### The schema tree and the shared parse protocol

A `Schema` is one node of the schema tree: its kind-specific configuration
plus the base class's `_optional` flag (set on the `Object.create` clone
returned by `optional()`).

Method dispatch is modelled faithfully: `RyuString`, `RyuNum` and `RyuObj`
*override* `parse` directly (their class bodies declare `parse`, shadowing
`RyuSchema.parse`), so for those kinds the base class's optional short-circuit
never runs and the subclass default paths apply (`["value"]` for the
primitives, `[]` for `RyuObj`). `RyuArr` and `RyuBool` instead implement
`internalParse` and inherit `RyuSchema.parse(data?, path = [])`, which checks
`_optional` first. The `Option RyuPath` argument models the optional `path`
parameter (`none` = caller supplied no path, as in the public
`schema.parse(value)` call).
-/

/-- A schema node: constructor = class of the node, first argument = the
    base class's `_optional` flag. -/
inductive Schema where
  | str (opt : Bool) (ss : RyuString)
  | num (opt : Bool) (ns : RyuNum)
  | bool (opt : Bool) (bs : RyuBool)
  | obj (opt : Bool) (shape : List (String × Schema))
  | arr (opt : Bool) (elem : Option Schema) (errorMsg : String)

namespace Schema

/-- `RyuSchema.optional()`: `Object.create(this)` plus `clone._optional = true`
    — a derived view with the same configuration and the flag set; the base
    node itself is unchanged (values are immutable here, as the clone shares
    and never mutates the base's state). -/
def optional : Schema → Schema
  | .str _ ss => .str true ss
  | .num _ ns => .num true ns
  | .bool _ bs => .bool true bs
  | .obj _ shape => .obj true shape
  | .arr _ elem msg => .arr true elem msg

/-- `_isRootPrimitive` is declared (as `true`) on `RyuString`, `RyuNum`
    and `RyuBool` and absent (hence falsy) on `RyuObj` and `RyuArr`. -/
def isRootPrimitive : Schema → Bool
  | .str _ _ => true
  | .num _ _ => true
  | .bool _ _ => true
  | .obj _ _ => false
  | .arr _ _ _ => false

end Schema

/-- `new RyuArr(ryuSchema?, errorMsg?)`: `_errorMsg = errorMsg ?? "Expected array"`. -/
def mkRyuArr (elem : Option Schema) (errorMsg : Option String) : Schema :=
  .arr false elem (errorMsg.getD "Expected array")

mutual

/-- `schema.parse(data, path?)` with JavaScript method dispatch (see the
    section comment): `RyuString.parse` / `RyuNum.parse` / `RyuObj.parse`
    when overridden, otherwise the base `RyuSchema.parse` (optional
    short-circuit, then `internalParse`). -/
def Schema.parse : Schema → Option RyuPath → Value → Except RyuError Value
  | .str _ ss, p?, v =>
      -- RyuString overrides parse (default path ["value"]); _optional ignored.
      (RyuString.parse ss (p?.getD [Seg.s "value"]) v).map Value.str
  | .num _ ns, p?, v =>
      -- RyuNum overrides parse (default path ["value"]); _optional ignored.
      (RyuNum.parse ns (p?.getD [Seg.s "value"]) v).map Value.num
  | .bool opt bs, p?, v =>
      -- RyuBool inherits RyuSchema.parse (default path []); optional honoured.
      if opt && v.isNullish then .ok .undefined
      else (RyuBool.internalParse bs (p?.getD []) v).map Value.bool
  | .obj _ shape, p?, v =>
      -- RyuObj overrides parse (default path []); _optional ignored.
      -- The type failure throws with the hardcoded path ["value"].
      if v.isObjectLike then
        (parseShape shape (p?.getD []) v).map Value.obj
      else .error ⟨1, "Expected object", some [Seg.s "value"], some errStack⟩
  | .arr opt elem msg, p?, v =>
      -- RyuArr inherits RyuSchema.parse (default path []); optional honoured.
      if opt && v.isNullish then .ok .undefined
      else
        match v with
        | .arr l =>
            match elem with
            | none => .ok (.arr (l.map fun _ => .undefined))
            | some sch => (parseElems sch (p?.getD []) 0 l).map Value.arr
        | _ => .error (err1 msg (p?.getD []))
termination_by s _ _ => (sizeOf s, 0)

/-- The field loop of `RyuObj.parse`: for each declared key in order,
    `result[key] = schema.parse(data[key], [...path, key])`, the catch block
    filling in the path only when the propagating error lacks one. -/
def parseShape : List (String × Schema) → RyuPath → Value →
    Except RyuError (List (String × Value))
  | [], _, _ => .ok []
  | (key, sch) :: rest, p, v =>
      match Schema.parse sch (some (p ++ [Seg.s key])) (getField v key) with
      | .error e => .error (fillPath e (p ++ [Seg.s key]))
      | .ok w =>
          match parseShape rest p v with
          | .error e => .error e
          | .ok ws => .ok ((key, w) :: ws)
termination_by shape _ _ => (sizeOf shape, 0)

/-- The element loop of `RyuArr.internalParse`:
    `data.map((v, i) => { try ryuSchema.parse(v, [...path, i]) catch ... })` —
    elements in index order, first failure aborts, catch fills in the path
    only when absent. -/
def parseElems (sch : Schema) (p : RyuPath) (i : Nat) :
    List Value → Except RyuError (List Value)
  | [] => .ok []
  | w :: rest =>
      match Schema.parse sch (some (p ++ [Seg.i i])) w with
      | .error e => .error (fillPath e (p ++ [Seg.i i]))
      | .ok r =>
          match parseElems sch p (i + 1) rest with
          | .error e => .error e
          | .ok rs => .ok (r :: rs)
termination_by l => (sizeOf sch, l.length + 1)

end

/-- `RyuSafeParseResult<T>` from `src/v1/type.ts`:
    `{ data: T | null; success: boolean; error: RyuError | null }`. -/
structure RyuSafeParseResult where
  data : Value
  success : Bool
  error : Option RyuError

/-- The root path `safeParse` supplies to `parse`:
    `(this as any)._isRootPrimitive ? ["value"] : []`. -/
def Schema.rootPath (s : Schema) : RyuPath :=
  if s.isRootPrimitive then [Seg.s "value"] else []

/-- `RyuSchema.safeParse(data)`: calls `parse` with the root path, returning
    `{data: parsed ?? null, success: true, error: null}` on success and, for a
    caught error, `{data: null, success: false, error: {code: 1,
    message: err.message, path: err.path, stack: err.stack}}` (the source
    hardcodes `code: 1` and writes `err?.message ?? "Unknown error"`; every
    error `parse` can raise carries a message). -/
def Schema.safeParse (s : Schema) (v : Value) : RyuSafeParseResult :=
  match s.parse (some s.rootPath) v with
  | .ok parsed => ⟨nullCoalesce parsed, true, none⟩
  | .error e => ⟨.null, false, some ⟨1, e.message, e.path, e.stack⟩⟩

/-! ### General lemmas about the parse protocol -/

/-- The success projection of a parse result (`none` on error): which value,
    if any, a call returns — the part of the outcome that is path-independent. -/
def okOf : Except RyuError α → Option α
  | .ok a => some a
  | .error _ => none

theorem okOf_ok (a : α) : okOf (Except.ok (ε := RyuError) a) = some a := rfl

theorem okOf_error (e : RyuError) : okOf (Except.error (α := α) e) = none := rfl

theorem okOf_eq_some (x : Except RyuError α) (a : α) :
    okOf x = some a ↔ x = .ok a := by
  cases x <;> simp [okOf]

theorem okOf_eq_none (x : Except RyuError α) :
    okOf x = none ↔ ∃ e, x = .error e := by
  cases x <;> simp [okOf]

theorem okOf_map (f : α → β) (x : Except RyuError α) :
    okOf (Except.map f x) = (okOf x).map f := by
  cases x <;> simp [okOf, Except.map]

theorem fillPath_code (e : RyuError) (q : RyuPath) : (fillPath e q).code = e.code := by
  rcases hp : e.path with _ | r <;> simp [fillPath, hp]

theorem fillPath_message (e : RyuError) (q : RyuPath) :
    (fillPath e q).message = e.message := by
  rcases hp : e.path with _ | r <;> simp [fillPath, hp]

theorem fillPath_path_isSome (e : RyuError) (q : RyuPath) :
    (fillPath e q).path.isSome := by
  rcases hp : e.path with _ | r <;> simp [fillPath, hp]

theorem fillPath_of_isSome (e : RyuError) (q : RyuPath) (h : e.path.isSome) :
    fillPath e q = e := by
  rcases hp : e.path with _ | r
  · rw [hp] at h; simp at h
  · simp [fillPath, hp]

/-- Every error `RyuString.parse` raises is a code-1 error at exactly the
    path the caller supplied. -/
theorem ryuString_parse_error_eq (ss : RyuString) (p : RyuPath) (v : Value)
    (e : RyuError) (h : RyuString.parse ss p v = .error e) :
    e = err1 e.message p := by
  cases v with
  | str data =>
      cases hf : ss.firstFail data <;> simp [RyuString.parse, hf] at h
      rw [← h]; rfl
  | undefined => simp [RyuString.parse] at h; rw [← h]; rfl
  | null => simp [RyuString.parse] at h; rw [← h]; rfl
  | bool b => simp [RyuString.parse] at h; rw [← h]; rfl
  | num n => simp [RyuString.parse] at h; rw [← h]; rfl
  | arr l => simp [RyuString.parse] at h; rw [← h]; rfl
  | obj fs => simp [RyuString.parse] at h; rw [← h]; rfl

/-- The value (if any) `RyuString.parse` returns does not depend on the path. -/
theorem ryuString_parse_okOf (ss : RyuString) (p q : RyuPath) (v : Value) :
    okOf (RyuString.parse ss p v) = okOf (RyuString.parse ss q v) := by
  cases v with
  | str data => cases hf : ss.firstFail data <;> simp [RyuString.parse, hf, okOf]
  | undefined => rfl
  | null => rfl
  | bool b => rfl
  | num n => rfl
  | arr l => rfl
  | obj fs => rfl

/-- Every error `RyuNum.parse` raises is a code-1 error at exactly the
    path the caller supplied. -/
theorem ryuNum_parse_error_eq (ns : RyuNum) (p : RyuPath) (v : Value)
    (e : RyuError) (h : RyuNum.parse ns p v = .error e) :
    e = err1 e.message p := by
  cases v with
  | num data =>
      cases hf : ns.firstFail data <;> simp [RyuNum.parse, hf] at h
      rw [← h]; rfl
  | undefined => simp [RyuNum.parse] at h; rw [← h]; rfl
  | null => simp [RyuNum.parse] at h; rw [← h]; rfl
  | bool b => simp [RyuNum.parse] at h; rw [← h]; rfl
  | str s => simp [RyuNum.parse] at h; rw [← h]; rfl
  | arr l => simp [RyuNum.parse] at h; rw [← h]; rfl
  | obj fs => simp [RyuNum.parse] at h; rw [← h]; rfl

/-- The value (if any) `RyuNum.parse` returns does not depend on the path. -/
theorem ryuNum_parse_okOf (ns : RyuNum) (p q : RyuPath) (v : Value) :
    okOf (RyuNum.parse ns p v) = okOf (RyuNum.parse ns q v) := by
  cases v with
  | num data => cases hf : ns.firstFail data <;> simp [RyuNum.parse, hf, okOf]
  | undefined => rfl
  | null => rfl
  | bool b => rfl
  | str s => rfl
  | arr l => rfl
  | obj fs => rfl

/-- Every error `RyuBool.internalParse` raises is a code-1 error at exactly
    the path the caller supplied. -/
theorem ryuBool_internalParse_error_eq (bs : RyuBool) (p : RyuPath) (v : Value)
    (e : RyuError) (h : RyuBool.internalParse bs p v = .error e) :
    e = err1 e.message p := by
  cases v with
  | bool data =>
      cases hf : bs.firstFail data <;> simp [RyuBool.internalParse, hf] at h
      rw [← h]; rfl
  | undefined => simp [RyuBool.internalParse] at h; rw [← h]; rfl
  | null => simp [RyuBool.internalParse] at h; rw [← h]; rfl
  | num n => simp [RyuBool.internalParse] at h; rw [← h]; rfl
  | str s => simp [RyuBool.internalParse] at h; rw [← h]; rfl
  | arr l => simp [RyuBool.internalParse] at h; rw [← h]; rfl
  | obj fs => simp [RyuBool.internalParse] at h; rw [← h]; rfl

/-- The value (if any) `RyuBool.internalParse` returns does not depend on
    the path. -/
theorem ryuBool_internalParse_okOf (bs : RyuBool) (p q : RyuPath) (v : Value) :
    okOf (RyuBool.internalParse bs p v) = okOf (RyuBool.internalParse bs q v) := by
  cases v with
  | bool data => cases hf : bs.firstFail data <;> simp [RyuBool.internalParse, hf, okOf]
  | undefined => rfl
  | null => rfl
  | num n => rfl
  | str s => rfl
  | arr l => rfl
  | obj fs => rfl

mutual

/-- Whether `parse` succeeds, and the value it returns when it does, are
    independent of the caller-supplied path (paths only decorate errors). -/
theorem parse_okOf_irrel (s : Schema) (p q : Option RyuPath) (v : Value) :
    okOf (Schema.parse s p v) = okOf (Schema.parse s q v) := by
  cases s with
  | str opt ss =>
      have h := ryuString_parse_okOf ss (p.getD [Seg.s "value"]) (q.getD [Seg.s "value"]) v
      simp [Schema.parse, okOf_map, h]
  | num opt ns =>
      have h := ryuNum_parse_okOf ns (p.getD [Seg.s "value"]) (q.getD [Seg.s "value"]) v
      simp [Schema.parse, okOf_map, h]
  | bool opt bs =>
      have h := ryuBool_internalParse_okOf bs (p.getD []) (q.getD []) v
      cases hn : (opt && v.isNullish) <;> simp [Schema.parse, hn, okOf_map, h]
  | obj opt shape =>
      have hs := parseShape_okOf_irrel shape (p.getD []) (q.getD []) v
      cases ho : v.isObjectLike <;> simp [Schema.parse, ho, okOf_map, hs, okOf_error]
  | arr opt elem msg =>
      cases hn : (opt && v.isNullish) with
      | true => rw [Schema.parse.eq_def, Schema.parse.eq_def]; simp [hn]
      | false =>
          cases v with
          | arr l =>
              cases elem with
              | none => simp [Schema.parse, hn]
              | some sch =>
                  have he := parseElems_okOf_irrel sch (p.getD []) (q.getD []) 0 l
                  simp [Schema.parse, hn, okOf_map, he]
          | undefined => simp [Schema.parse, hn, okOf_error]
          | null => simp [Schema.parse, hn, okOf_error]
          | bool b => simp [Schema.parse, hn, okOf_error]
          | num n => simp [Schema.parse, hn, okOf_error]
          | str s => simp [Schema.parse, hn, okOf_error]
          | obj fs => simp [Schema.parse, hn, okOf_error]
termination_by (sizeOf s, 0)

/-- Path-independence of the object field loop's success and result. -/
theorem parseShape_okOf_irrel (shape : List (String × Schema)) (p q : RyuPath)
    (v : Value) : okOf (parseShape shape p v) = okOf (parseShape shape q v) := by
  cases shape with
  | nil => simp [parseShape, okOf_ok]
  | cons hd rest =>
      obtain ⟨key, sch⟩ := hd
      have hc := parse_okOf_irrel sch (some (p ++ [Seg.s key]))
        (some (q ++ [Seg.s key])) (getField v key)
      have hr := parseShape_okOf_irrel rest p q v
      cases h1 : Schema.parse sch (some (p ++ [Seg.s key])) (getField v key) with
      | error e1 =>
          cases h2 : Schema.parse sch (some (q ++ [Seg.s key])) (getField v key) with
          | error e2 => simp [parseShape, h1, h2, okOf]
          | ok w => rw [h1, h2] at hc; simp [okOf] at hc
      | ok w =>
          cases h2 : Schema.parse sch (some (q ++ [Seg.s key])) (getField v key) with
          | error e2 => rw [h1, h2] at hc; simp [okOf] at hc
          | ok w2 =>
              rw [h1, h2] at hc; simp only [okOf, Option.some.injEq] at hc
              subst hc
              cases h3 : parseShape rest p v with
              | error e =>
                  cases h4 : parseShape rest q v with
                  | error e2 => simp [parseShape, h1, h2, h3, h4, okOf]
                  | ok ws => rw [h3, h4] at hr; simp [okOf] at hr
              | ok ws =>
                  cases h4 : parseShape rest q v with
                  | error e2 => rw [h3, h4] at hr; simp [okOf] at hr
                  | ok ws2 =>
                      rw [h3, h4] at hr
                      simp only [okOf, Option.some.injEq] at hr
                      subst hr
                      simp [parseShape, h1, h2, h3, h4, okOf]
termination_by (sizeOf shape, 0)

/-- Path-independence of the array element loop's success and result. -/
theorem parseElems_okOf_irrel (sch : Schema) (p q : RyuPath) (i : Nat)
    (l : List Value) : okOf (parseElems sch p i l) = okOf (parseElems sch q i l) := by
  cases l with
  | nil => simp [parseElems, okOf_ok]
  | cons w rest =>
      have hc := parse_okOf_irrel sch (some (p ++ [Seg.i i]))
        (some (q ++ [Seg.i i])) w
      have hr := parseElems_okOf_irrel sch p q (i + 1) rest
      cases h1 : Schema.parse sch (some (p ++ [Seg.i i])) w with
      | error e1 =>
          cases h2 : Schema.parse sch (some (q ++ [Seg.i i])) w with
          | error e2 => simp [parseElems, h1, h2, okOf]
          | ok r => rw [h1, h2] at hc; simp [okOf] at hc
      | ok r =>
          cases h2 : Schema.parse sch (some (q ++ [Seg.i i])) w with
          | error e2 => rw [h1, h2] at hc; simp [okOf] at hc
          | ok r2 =>
              rw [h1, h2] at hc; simp only [okOf, Option.some.injEq] at hc
              subst hc
              cases h3 : parseElems sch p (i + 1) rest with
              | error e =>
                  cases h4 : parseElems sch q (i + 1) rest with
                  | error e2 => simp [parseElems, h1, h2, h3, h4, okOf]
                  | ok rs => rw [h3, h4] at hr; simp [okOf] at hr
              | ok rs =>
                  cases h4 : parseElems sch q (i + 1) rest with
                  | error e2 => rw [h3, h4] at hr; simp [okOf] at hr
                  | ok rs2 =>
                      rw [h3, h4] at hr
                      simp only [okOf, Option.some.injEq] at hr
                      subst hr
                      simp [parseElems, h1, h2, h3, h4, okOf]
termination_by (sizeOf sch, l.length + 1)

end

mutual

/-- Every error raised during a parse carries code 1 and a path:
    all throw sites inside the parse protocol build `{code: 1, ..., path}`
    errors, and the composite catch blocks only ever add a missing path. -/
theorem parse_error_shape (s : Schema) (p? : Option RyuPath) (v : Value) :
    ∀ e : RyuError, Schema.parse s p? v = .error e → e.code = 1 ∧ e.path.isSome := by
  cases s with
  | str opt ss =>
      intro e h
      simp only [Schema.parse] at h
      cases h1 : RyuString.parse ss (p?.getD [Seg.s "value"]) v with
      | error e1 =>
          rw [h1] at h; simp [Except.map] at h
          rw [← h, ryuString_parse_error_eq ss _ v e1 h1]
          simp [err1]
      | ok w => rw [h1] at h; simp [Except.map] at h
  | num opt ns =>
      intro e h
      simp only [Schema.parse] at h
      cases h1 : RyuNum.parse ns (p?.getD [Seg.s "value"]) v with
      | error e1 =>
          rw [h1] at h; simp [Except.map] at h
          rw [← h, ryuNum_parse_error_eq ns _ v e1 h1]
          simp [err1]
      | ok w => rw [h1] at h; simp [Except.map] at h
  | bool opt bs =>
      intro e h
      simp only [Schema.parse] at h
      cases hn : (opt && v.isNullish) with
      | true => rw [hn] at h; simp at h
      | false =>
          rw [hn] at h; simp only [Bool.false_eq_true, if_false] at h
          cases h1 : RyuBool.internalParse bs (p?.getD []) v with
          | error e1 =>
              rw [h1] at h; simp [Except.map] at h
              rw [← h, ryuBool_internalParse_error_eq bs _ v e1 h1]
              simp [err1]
          | ok w => rw [h1] at h; simp [Except.map] at h
  | obj opt shape =>
      intro e h
      simp only [Schema.parse] at h
      cases ho : v.isObjectLike with
      | true =>
          rw [ho] at h; simp only [if_true] at h
          cases h1 : parseShape shape (p?.getD []) v with
          | error e1 =>
              rw [h1] at h; simp [Except.map] at h
              rw [← h]
              exact parseShape_error_shape shape (p?.getD []) v e1 h1
          | ok ws => rw [h1] at h; simp [Except.map] at h
      | false =>
          rw [ho] at h; simp only [Bool.false_eq_true, if_false] at h
          simp only [Except.error.injEq] at h
          rw [← h]; simp
  | arr opt elem msg =>
      intro e h
      rw [Schema.parse.eq_def] at h
      simp only at h
      cases hn : (opt && v.isNullish) with
      | true => rw [hn] at h; simp at h
      | false =>
          rw [hn] at h; simp only [Bool.false_eq_true, if_false] at h
          cases v with
          | arr l =>
              cases elem with
              | none => simp at h
              | some sch =>
                  simp only at h
                  cases h1 : parseElems sch (p?.getD []) 0 l with
                  | error e1 =>
                      rw [h1] at h; simp [Except.map] at h
                      rw [← h]
                      exact parseElems_error_shape sch (p?.getD []) 0 l e1 h1
                  | ok rs => rw [h1] at h; simp [Except.map] at h
          | undefined => simp [err1] at h; subst h; simp
          | null => simp [err1] at h; subst h; simp
          | bool b => simp [err1] at h; subst h; simp
          | num n => simp [err1] at h; subst h; simp
          | str s => simp [err1] at h; subst h; simp
          | obj fs => simp [err1] at h; subst h; simp
termination_by (sizeOf s, 0)

/-- Errors escaping the object field loop carry code 1 and a path. -/
theorem parseShape_error_shape (shape : List (String × Schema)) (p : RyuPath)
    (v : Value) :
    ∀ e : RyuError, parseShape shape p v = .error e → e.code = 1 ∧ e.path.isSome := by
  rcases shape with _ | ⟨⟨key, sch⟩, rest⟩
  · intro e h; simp [parseShape] at h
  · intro e h
    simp only [parseShape] at h
    cases h1 : Schema.parse sch (some (p ++ [Seg.s key])) (getField v key) with
    | error e1 =>
        rw [h1] at h; simp only [Except.error.injEq] at h
        have := parse_error_shape sch (some (p ++ [Seg.s key])) (getField v key) e1 h1
        rw [← h]
        exact ⟨by rw [fillPath_code]; exact this.1, fillPath_path_isSome e1 _⟩
    | ok w =>
        rw [h1] at h
        cases h2 : parseShape rest p v with
        | error e2 =>
            rw [h2] at h; simp only [Except.error.injEq] at h
            rw [← h]
            exact parseShape_error_shape rest p v e2 h2
        | ok ws => rw [h2] at h; simp at h
termination_by (sizeOf shape, 0)

/-- Errors escaping the array element loop carry code 1 and a path. -/
theorem parseElems_error_shape (sch : Schema) (p : RyuPath) (i : Nat)
    (l : List Value) :
    ∀ e : RyuError, parseElems sch p i l = .error e → e.code = 1 ∧ e.path.isSome := by
  cases l with
  | nil => intro e h; simp [parseElems] at h
  | cons w rest =>
      intro e h
      simp only [parseElems] at h
      cases h1 : Schema.parse sch (some (p ++ [Seg.i i])) w with
      | error e1 =>
          rw [h1] at h; simp only [Except.error.injEq] at h
          have := parse_error_shape sch (some (p ++ [Seg.i i])) w e1 h1
          rw [← h]
          exact ⟨by rw [fillPath_code]; exact this.1, fillPath_path_isSome e1 _⟩
      | ok r =>
          rw [h1] at h
          cases h2 : parseElems sch p (i + 1) rest with
          | error e2 =>
              rw [h2] at h; simp only [Except.error.injEq] at h
              rw [← h]
              exact parseElems_error_shape sch p (i + 1) rest e2 h2
          | ok rs => rw [h2] at h; simp at h
termination_by (sizeOf sch, l.length + 1)

end

/-- The object field loop processes a concatenation left to right:
    the first failure in the left part aborts before the right part runs. -/
theorem parseShape_append (l1 l2 : List (String × Schema)) (p : RyuPath) (v : Value) :
    parseShape (l1 ++ l2) p v =
      match parseShape l1 p v with
      | .error e => .error e
      | .ok ws1 =>
          match parseShape l2 p v with
          | .error e => .error e
          | .ok ws2 => .ok (ws1 ++ ws2) := by
  induction l1 with
  | nil =>
      simp only [List.nil_append, parseShape]
      cases parseShape l2 p v <;> simp
  | cons hd rest ih =>
      obtain ⟨key, sch⟩ := hd
      simp only [List.cons_append, parseShape, ih]
      cases Schema.parse sch (some (p ++ [Seg.s key])) (getField v key) with
      | error e => simp
      | ok w =>
          cases parseShape rest p v with
          | error e => simp
          | ok ws =>
              cases parseShape l2 p v <;> simp

/-- The array element loop processes a concatenation left to right, the
    right part starting at the shifted index. -/
theorem parseElems_append (sch : Schema) (p : RyuPath) (l1 l2 : List Value) :
    ∀ i : Nat, parseElems sch p i (l1 ++ l2) =
      match parseElems sch p i l1 with
      | .error e => .error e
      | .ok r1 =>
          match parseElems sch p (i + l1.length) l2 with
          | .error e => .error e
          | .ok r2 => .ok (r1 ++ r2) := by
  induction l1 with
  | nil =>
      intro i
      simp only [List.nil_append, parseElems, List.length_nil, Nat.add_zero]
      cases parseElems sch p i l2 <;> simp
  | cons w rest ih =>
      intro i
      simp only [List.cons_append, parseElems, ih (i + 1), List.length_cons]
      cases Schema.parse sch (some (p ++ [Seg.i i])) w with
      | error e => simp
      | ok r =>
          cases parseElems sch p (i + 1) rest with
          | error e => simp
          | ok rs =>
              have harith : i + 1 + rest.length = i + (rest.length + 1) := by omega
              rw [harith]
              cases parseElems sch p (i + (rest.length + 1)) l2 <;> simp

/-- When the element loop succeeds it returns exactly one validated value per
    input element, in order: the output has the input's length and the k-th
    output is the successful parse of the k-th input at path `p ++ [i + k]`. -/
theorem parseElems_ok_spec (sch : Schema) (p : RyuPath) :
    ∀ (l : List Value) (i : Nat) (out : List Value),
      parseElems sch p i l = .ok out →
      out.length = l.length ∧
      ∀ k (hk : k < l.length) (hk2 : k < out.length),
        Schema.parse sch (some (p ++ [Seg.i (i + k)])) (l.get ⟨k, hk⟩) =
          .ok (out.get ⟨k, hk2⟩) := by
  intro l
  induction l with
  | nil =>
      intro i out h
      simp [parseElems] at h
      subst h
      exact ⟨rfl, fun k hk => by simp at hk⟩
  | cons w rest ih =>
      intro i out h
      simp only [parseElems] at h
      cases h1 : Schema.parse sch (some (p ++ [Seg.i i])) w with
      | error e1 => rw [h1] at h; simp at h
      | ok r =>
          rw [h1] at h
          cases h2 : parseElems sch p (i + 1) rest with
          | error e2 => rw [h2] at h; simp at h
          | ok rs =>
              rw [h2] at h; simp only [Except.ok.injEq] at h
              subst h
              obtain ⟨hlen, helem⟩ := ih (i + 1) rs h2
              refine ⟨by simp [hlen], ?_⟩
              intro k hk hk2
              cases k with
              | zero => simpa using h1
              | succ k' =>
                  have hk' : k' < rest.length := by simpa using hk
                  have hk2' : k' < rs.length := by simpa using hk2
                  have harith : i + (k' + 1) = i + 1 + k' := by omega
                  rw [harith]
                  simpa using helem k' hk' hk2'

/-- First failure in the element loop: if the elements before position
    `l1.length` all validate and the element there fails with `e`, the loop
    propagates `e` through the catch block (which fills the path only if
    `e` carries none). -/
theorem parseElems_first_error (sch : Schema) (p : RyuPath) (l1 : List Value)
    (w : Value) (l2 : List Value) (r1 : List Value) (e : RyuError)
    (h1 : parseElems sch p 0 l1 = .ok r1)
    (h2 : Schema.parse sch (some (p ++ [Seg.i l1.length])) w = .error e) :
    parseElems sch p 0 (l1 ++ w :: l2) = .error (fillPath e (p ++ [Seg.i l1.length])) := by
  rw [parseElems_append sch p l1 (w :: l2) 0, h1]
  simp only [Nat.zero_add]
  simp only [parseElems, h2]

/-- First failure in the object field loop: if the fields declared before
    `key` all validate and `key`'s child fails with `e`, the loop propagates
    `e` through the catch block. -/
theorem parseShape_first_error (pre : List (String × Schema)) (key : String)
    (sch : Schema) (rest : List (String × Schema)) (p : RyuPath) (v : Value)
    (fs : List (String × Value)) (e : RyuError)
    (h1 : parseShape pre p v = .ok fs)
    (h2 : Schema.parse sch (some (p ++ [Seg.s key])) (getField v key) = .error e) :
    parseShape (pre ++ (key, sch) :: rest) p v =
      .error (fillPath e (p ++ [Seg.s key])) := by
  rw [parseShape_append pre ((key, sch) :: rest) p v, h1]
  simp only [parseShape, h2]

/-! ### The claims -/

/-- The configuration produced by `string().min(3)` (default message). -/
def stringMinCfg3 : RyuString :=
  { mkRyuString with
    constraintType := some .range,
    _min := some ((3 : Int), "String must have " ++ toString (3 : Int) ++ " characters") }

/-- Claim C2 (confirmed): for every string `s` and natural number `n`,
    `string().min(n).parse(s)` fails exactly when `s.length < n` (with the
    default code-1 "String must have n characters" error at the root path),
    and otherwise succeeds returning `s` itself, unchanged. -/
theorem c2_string_min_parse (n : Nat) (s : String) (ss : RyuString)
    (hmin : RyuString._minImpl mkRyuString (n : Int) none = .ok ss) :
    Schema.parse (.str false ss) none (.str s) =
      if (s.length : Int) < (n : Int) then
        .error (err1 ("String must have " ++ toString (n : Int) ++ " characters")
          [Seg.s "value"])
      else .ok (.str s) := by
  simp only [RyuString._minImpl, mkRyuString] at hmin
  rw [if_neg (by simp)] at hmin
  simp only [Except.ok.injEq] at hmin
  subst hmin
  by_cases hlt : (s.length : Int) < (n : Int)
  · simp [Schema.parse, RyuString.parse, RyuString.firstFail, hlt, Except.map]
  · simp [Schema.parse, RyuString.parse, RyuString.firstFail, hlt, Except.map]

/-- Witness for C2 at `n = 3`, `s = "Ra"`. -/
theorem c2_string_min_parse_witness :
    RyuString._minImpl mkRyuString (3 : Int) none = .ok stringMinCfg3 ∧
    Schema.parse (.str false stringMinCfg3) none (.str "Ra") =
      if (("Ra".length : Int) < ((3 : Nat) : Int)) then
        .error (err1 ("String must have " ++ toString ((3 : Nat) : Int) ++ " characters")
          [Seg.s "value"])
      else .ok (.str "Ra") :=
  ⟨rfl, c2_string_min_parse 3 "Ra" stringMinCfg3 rfl⟩

/-- The configuration produced by `number().positive()` (default message). -/
def numPositiveCfg : RyuNum :=
  { mkRyuNum with
    constraintType := some .positive,
    _positive := some (true, "Should be positive") }

/-- The configuration produced by `number().negative()` (default message —
    the source assigns the literal "Should be positive" here too). -/
def numNegativeCfg : RyuNum :=
  { mkRyuNum with
    constraintType := some .negative,
    _negative := some (true, "Should be positive") }

/-- Claim C3 (code_bug): the claim (and the method's own documentation,
    "Ensures the number is positive (> 0)") says `number().positive().parse(0)`
    fails; the code's check is `data < 0`, so parsing `0` under `positive()`
    succeeds and returns `0`. `number().negative().parse(0)` does fail as
    claimed (check `data >= 0`), with the source's copy-pasted
    "Should be positive" default message. -/
theorem c3_sign_boundary_eval :
    RyuNum._positiveImpl mkRyuNum none = .ok numPositiveCfg ∧
    Schema.parse (.num false numPositiveCfg) none (.num 0) = .ok (.num 0) ∧
    RyuNum._negativeImpl mkRyuNum none = .ok numNegativeCfg ∧
    Schema.parse (.num false numNegativeCfg) none (.num 0) =
      .error (err1 "Should be positive" [Seg.s "value"]) := by
  refine ⟨rfl, ?_, rfl, ?_⟩
  · simp [Schema.parse, RyuNum.parse, RyuNum.firstFail, numPositiveCfg, mkRyuNum,
      Except.map]
  · simp [Schema.parse, RyuNum.parse, RyuNum.firstFail, numNegativeCfg, mkRyuNum,
      Except.map]

/-- Claim C5 (confirmed):
    `object({a: object({b: number()})}).parse({a: {b: "x"}})` fails, and the
    surfaced ValidationError carries code 1 and path `["a", "b"]`. -/
theorem c5_nested_object_path :
    Schema.parse (.obj false [("a", .obj false [("b", .num false mkRyuNum)])]) none
      (.obj [("a", .obj [("b", .str "x")])]) =
      .error (err1 "Expected number" [Seg.s "a", Seg.s "b"]) := by
  simp [Schema.parse, parseShape, RyuNum.parse, RyuNum.firstFail, mkRyuNum, getField,
    lookupField, fillPath, err1, Value.isObjectLike, Except.map]

/-- Claim C10 (confirmed): an `array()` schema built without an element schema
    accepts every array: `internalParse` maps each element through
    `_ryuSchema?.parse`, which is `undefined` when no schema was given, so the
    result is a same-length array of `undefined` with no validation run. -/
theorem c10_array_without_schema (l : List Value) (p? : Option RyuPath) :
    Schema.parse (mkRyuArr none none) p? (.arr l) =
      .ok (.arr (l.map fun _ => .undefined)) := by
  simp [mkRyuArr, Schema.parse]

/-- Counterexample for claim C1: for the optional array schema
    `array().optional()` and input `undefined`, `parse` returns `undefined`
    (the optional short-circuit) but `safeParse` reports `data = null`
    because of `data: parsed ?? null` — so the data field does not equal the
    value `parse` returns, refuting the claim at this input. -/
theorem c1_counterexample :
    Schema.parse (Schema.optional (mkRyuArr none none)) none .undefined = .ok .undefined ∧
    (Schema.safeParse (Schema.optional (mkRyuArr none none)) .undefined).success = true ∧
    (Schema.safeParse (Schema.optional (mkRyuArr none none)) .undefined).data = .null ∧
    Value.null ≠ Value.undefined := by
  refine ⟨?_, ?_, ?_, by simp⟩
  · rw [Schema.parse.eq_def]; simp [Schema.optional, mkRyuArr, Value.isNullish]
  · simp only [Schema.safeParse, Schema.rootPath]
    rw [Schema.parse.eq_def]
    simp [Schema.optional, mkRyuArr, Value.isNullish, Schema.isRootPrimitive]
  · simp only [Schema.safeParse, Schema.rootPath]
    rw [Schema.parse.eq_def]
    simp [Schema.optional, mkRyuArr, Value.isNullish, Schema.isRootPrimitive,
      nullCoalesce]

/-- Claim C1 (corrected): for every schema node and input value,
    `safeParse` (a total function here — it never raises) reports
    `success = true` exactly when `parse(v)` (the public call, no path
    argument) would succeed, `success = false` exactly when it would raise,
    and on success `data` is `parse(v)`'s return value *normalized by
    `?? null`* (a successful `undefined` — and only that — surfaces as
    `null`; otherwise `data` is the parse result unchanged). -/
theorem c1_safeParse_amended (s : Schema) (v : Value) :
    ((Schema.safeParse s v).success = true ↔ ∃ w, Schema.parse s none v = .ok w) ∧
    (∀ w, Schema.parse s none v = .ok w → (Schema.safeParse s v).data = nullCoalesce w) ∧
    ((Schema.safeParse s v).success = false ↔ ∃ e, Schema.parse s none v = .error e) := by
  have hirrel := parse_okOf_irrel s (some s.rootPath) none v
  cases hp : Schema.parse s (some s.rootPath) v with
  | ok w =>
      rw [hp] at hirrel
      simp only [okOf_ok] at hirrel
      have hnone : Schema.parse s none v = .ok w := (okOf_eq_some _ _).mp hirrel.symm
      refine ⟨?_, ?_, ?_⟩
      · simp only [Schema.safeParse, hp]
        exact ⟨fun _ => ⟨w, hnone⟩, fun _ => trivial⟩
      · intro w2 hw2
        rw [hnone] at hw2
        simp only [Except.ok.injEq] at hw2
        subst hw2
        simp [Schema.safeParse, hp]
      · simp only [Schema.safeParse, hp]
        constructor
        · intro hfalse; simp at hfalse
        · rintro ⟨e, he⟩; rw [hnone] at he; simp at he
  | error e =>
      rw [hp] at hirrel
      simp only [okOf_error] at hirrel
      obtain ⟨e2, he2⟩ := (okOf_eq_none _).mp hirrel.symm
      refine ⟨?_, ?_, ?_⟩
      · simp only [Schema.safeParse, hp]
        constructor
        · intro htrue; simp at htrue
        · rintro ⟨w, hw⟩; rw [he2] at hw; simp at hw
      · intro w hw; rw [he2] at hw; simp at hw
      · simp only [Schema.safeParse, hp]
        exact ⟨fun _ => ⟨e2, he2⟩, fun _ => trivial⟩

/-- Witness for C1 (amended) at the string schema and input `"ok"`. -/
theorem c1_safeParse_amended_witness :
    (Schema.safeParse (.str false mkRyuString) (.str "ok")).success = true ∧
    (Schema.safeParse (.str false mkRyuString) (.str "ok")).data = .str "ok" := by
  have h := c1_safeParse_amended (.str false mkRyuString) (.str "ok")
  have hp : Schema.parse (.str false mkRyuString) none (.str "ok") = .ok (.str "ok") := by
    simp [Schema.parse, RyuString.parse, RyuString.firstFail, mkRyuString, Except.map]
  exact ⟨h.1.mpr ⟨_, hp⟩, by rw [h.2.1 _ hp]; rfl⟩

/-- Claim C9 (confirmed): the error payload round-trips unchanged through
    the safeParse boundary: when the internal `parse` call fails with `e`,
    `safeParse` reports failure with exactly `e` — same code (every error
    `parse` raises carries code 1, which is what the catch block writes),
    same message, same path, same stack. -/
theorem c9_error_roundtrip (s : Schema) (v : Value) (e : RyuError)
    (h : Schema.parse s (some s.rootPath) v = .error e) :
    (Schema.safeParse s v).success = false ∧
    (Schema.safeParse s v).error = some e ∧ e.code = 1 := by
  have hshape := parse_error_shape s (some s.rootPath) v e h
  refine ⟨by simp [Schema.safeParse, h], ?_, hshape.1⟩
  simp only [Schema.safeParse, h]
  have : (⟨1, e.message, e.path, e.stack⟩ : RyuError) = e := by
    cases e with
    | mk c m pa st =>
        have hc : c = 1 := hshape.1
        subst hc; rfl
  rw [this]

/-- Witness for C9 at the string schema and input `3`. -/
theorem c9_error_roundtrip_witness :
    (Schema.safeParse (.str false mkRyuString) (.num 3)).error =
      some (err1 "Expected string" [Seg.s "value"]) ∧
    (err1 "Expected string" [Seg.s "value"]).code = 1 := by
  have h := c9_error_roundtrip (.str false mkRyuString) (.num 3)
    (err1 "Expected string" [Seg.s "value"])
    (by simp [Schema.parse, Schema.rootPath, Schema.isRootPrimitive,
          RyuString.parse, mkRyuString, Except.map])
  exact ⟨h.2.1, h.2.2⟩

/-- The configuration produced by `string().length(3)` (default message). -/
def stringLengthCfg3 : RyuString :=
  { mkRyuString with
    constraintType := some .length,
    _length := some ((3 : Int), "String must contain " ++ toString (3 : Int) ++ " characters") }

/-- Claim C4 (confirmed): after `length(n)` succeeds on a string node, any
    `min(m)` on that node fails at configuration time with the code-2
    error naming both methods — and likewise for the number node's
    `positive()`/`negative()` pair — while `parse` never raises a code-2
    error: mutual exclusion is enforced at build time, never at parse time,
    independently of whether `parse` has run (chain state is the only input
    to the check; `parse` takes the configuration as a value and cannot
    change it). -/
theorem c4_mutual_exclusion_code2 :
    (∀ (ss : RyuString) (n : Int) (msg1 : Option String) (ss1 : RyuString),
      RyuString._lengthImpl ss n msg1 = .ok ss1 →
      ∀ (m : Int) (msg2 : Option String),
        RyuString._minImpl ss1 m msg2 =
          .error (err2 "Cannot use min() when a fixed length() has already been set.")) ∧
    (∀ (ns : RyuNum) (msg1 : Option String) (ns1 : RyuNum),
      RyuNum._positiveImpl ns msg1 = .ok ns1 →
      ∀ msg2 : Option String,
        RyuNum._negativeImpl ns1 msg2 =
          .error (err2 "Cannot use negative() when positive() has already been set")) ∧
    (∀ (ns : RyuNum) (msg1 : Option String) (ns1 : RyuNum),
      RyuNum._negativeImpl ns msg1 = .ok ns1 →
      ∀ msg2 : Option String,
        RyuNum._positiveImpl ns1 msg2 =
          .error (err2 "Cannot use positive() when negative() has already been set")) ∧
    (∀ (s : Schema) (p? : Option RyuPath) (v : Value) (e : RyuError),
      Schema.parse s p? v = .error e → e.code = 1 ∧ e.code ≠ 2) := by
  refine ⟨?_, ?_, ?_, ?_⟩
  · intro ss n msg1 ss1 h m msg2
    simp only [RyuString._lengthImpl] at h
    split at h
    · simp at h
    · simp only [Except.ok.injEq] at h
      subst h
      simp [RyuString._minImpl]
  · intro ns msg1 ns1 h msg2
    simp only [RyuNum._positiveImpl] at h
    split at h
    · simp at h
    · simp only [Except.ok.injEq] at h
      subst h
      simp [RyuNum._negativeImpl]
  · intro ns msg1 ns1 h msg2
    simp only [RyuNum._negativeImpl] at h
    split at h
    · simp at h
    · simp only [Except.ok.injEq] at h
      subst h
      simp [RyuNum._positiveImpl]
  · intro s p? v e h
    have := (parse_error_shape s p? v e h).1
    exact ⟨this, by rw [this]; simp⟩

/-- Witness for C4: `string().length(3)` then `.min(2)` fails with code 2. -/
theorem c4_mutual_exclusion_code2_witness :
    RyuString._minImpl stringLengthCfg3 2 none =
      .error (err2 "Cannot use min() when a fixed length() has already been set.") :=
  c4_mutual_exclusion_code2.1 mkRyuString 3 none stringLengthCfg3 rfl 2 none

/-- Claim C6 (code_bug): the spec (and the base class's design — the
    `_optional` flag checked by `RyuSchema.parse`, with validation moved to
    the abstract `internalParse`) says `optional()` short-circuits
    `undefined`/`null` to a successful `undefined`. But `RyuString`
    (like `RyuNum` and `RyuObj`) still declares its own `parse`, which
    shadows `RyuSchema.parse` and never checks `_optional` (nor does the
    class implement the abstract `internalParse` the base declares), so
    `string().optional().parse(undefined)` throws "Expected string", and
    `object({a: string().optional()}).parse({})` fails with path `["a"]`
    instead of succeeding with `a = undefined`. The short-circuit does work
    for the migrated classes (third conjunct: an optional array node). -/
theorem c6_optional_shadowed_eval :
    Schema.parse (Schema.optional (.str false mkRyuString)) none .undefined =
      .error (err1 "Expected string" [Seg.s "value"]) ∧
    Schema.parse (.obj false [("a", Schema.optional (.str false mkRyuString))]) none
      (.obj []) = .error (err1 "Expected string" [Seg.s "a"]) ∧
    Schema.parse (Schema.optional (mkRyuArr none none)) none .undefined = .ok .undefined := by
  refine ⟨?_, ?_, ?_⟩
  · simp [Schema.optional, Schema.parse, RyuString.parse, mkRyuString, Except.map]
  · simp [Schema.optional, Schema.parse, parseShape, RyuString.parse, mkRyuString,
      getField, lookupField, fillPath, err1, Value.isObjectLike, Except.map]
  · rw [Schema.parse.eq_def]
    simp [Schema.optional, mkRyuArr, Value.isNullish]

/-- Claim C7 (confirmed): array parse (i) fails with a code-1 error carrying
    the node's message when the input is not an array; (ii) on
    `array(number()).parse([1, "x", 3])` fails with path `[1]`; (iii) on
    success returns a new array of the validated elements, same length, in
    order, each element validated at path = outer path + its index; and
    (iv) in general the first element failure aborts the loop and propagates
    with the index-qualified path attached if the error carries none. -/
theorem c7_array_parse :
    (∀ (elem : Option Schema) (msg : String) (p? : Option RyuPath) (v : Value),
      v.isArr = false →
      Schema.parse (.arr false elem msg) p? v = .error (err1 msg (p?.getD []))) ∧
    (Schema.parse (mkRyuArr (some (.num false mkRyuNum)) none) none
      (.arr [.num 1, .str "x", .num 3]) =
      .error (err1 "Expected number" [Seg.i 1])) ∧
    (∀ (sch : Schema) (msg : String) (p? : Option RyuPath) (l : List Value) (w : Value),
      Schema.parse (.arr false (some sch) msg) p? (.arr l) = .ok w →
      ∃ out : List Value, w = .arr out ∧ out.length = l.length ∧
        ∀ k (hk : k < l.length) (hk2 : k < out.length),
          Schema.parse sch (some ((p?.getD []) ++ [Seg.i k])) (l.get ⟨k, hk⟩) =
            .ok (out.get ⟨k, hk2⟩)) ∧
    (∀ (sch : Schema) (msg : String) (p : RyuPath) (l1 : List Value) (w : Value)
      (l2 : List Value) (r1 : List Value) (e : RyuError),
      parseElems sch p 0 l1 = .ok r1 →
      Schema.parse sch (some (p ++ [Seg.i l1.length])) w = .error e →
      Schema.parse (.arr false (some sch) msg) (some p) (.arr (l1 ++ w :: l2)) =
        .error (fillPath e (p ++ [Seg.i l1.length]))) := by
  refine ⟨?_, ?_, ?_, ?_⟩
  · intro elem msg p? v hv
    cases v with
    | arr l => simp [Value.isArr] at hv
    | undefined => rw [Schema.parse.eq_def]; simp [Value.isNullish]
    | null => rw [Schema.parse.eq_def]; simp [Value.isNullish]
    | bool b => rw [Schema.parse.eq_def]; simp [Value.isNullish]
    | num n => rw [Schema.parse.eq_def]; simp [Value.isNullish]
    | str s => rw [Schema.parse.eq_def]; simp [Value.isNullish]
    | obj fs => rw [Schema.parse.eq_def]; simp [Value.isNullish]
  · simp [mkRyuArr, Schema.parse, parseElems, RyuNum.parse, RyuNum.firstFail,
      mkRyuNum, fillPath, err1, Except.map]
  · intro sch msg p? l w h
    rw [Schema.parse.eq_def] at h
    simp only [Bool.false_and, Bool.false_eq_true, if_false] at h
    cases hpe : parseElems sch (p?.getD []) 0 l with
    | error e => rw [hpe] at h; simp [Except.map] at h
    | ok out =>
        rw [hpe] at h
        simp only [Except.map, Except.ok.injEq] at h
        subst h
        obtain ⟨hlen, helem⟩ := parseElems_ok_spec sch (p?.getD []) l 0 out hpe
        refine ⟨out, rfl, hlen, ?_⟩
        intro k hk hk2
        have := helem k hk hk2
        simpa using this
  · intro sch msg p l1 w l2 r1 e h1 h2
    rw [Schema.parse.eq_def]
    simp only [Bool.false_and, Bool.false_eq_true, if_false, Option.getD_some]
    rw [parseElems_first_error sch p l1 w l2 r1 e h1 h2]
    rfl

/-- Witness for C7: `array()` on the non-array input `0`. -/
theorem c7_array_parse_witness :
    Schema.parse (.arr false none "Expected array") none (.num 0) =
      .error (err1 "Expected array" []) := by
  have h := c7_array_parse.1 none "Expected array" none (.num 0) rfl
  simpa using h

/-- Counterexample for claim C8: `RyuObj.parse` raises its type-identity
    failure with the hardcoded path `["value"]`, not the caller-supplied
    path: parsing the non-object `5` with supplied path `["a"]` (exactly what
    the outer node of `object({a: object({b: number()})})` does on input
    `{a: 5}`) surfaces path `["value"]`, refuting "path equals the path
    supplied by the caller". -/
theorem c8_counterexample :
    Schema.parse (.obj false [("b", .num false mkRyuNum)]) (some [Seg.s "a"])
      (.num 5) = .error ⟨1, "Expected object", some [Seg.s "value"], some errStack⟩ ∧
    (⟨1, "Expected object", some [Seg.s "value"], some errStack⟩ : RyuError).path ≠
      some [Seg.s "a"] := by
  refine ⟨?_, by simp⟩
  simp [Schema.parse, Value.isObjectLike]

/-- Claim C8 (corrected): every parse failure carries code 1 and a path (1);
    string and number nodes attach exactly the caller-supplied path (or their
    `["value"]` default) (2)(3), a boolean node the caller-supplied path (or
    the base default `[]`) (4), and an array node's own type failure the
    caller-supplied path (or `[]`) (5); but an object node's type-identity
    failure always carries the fixed synthetic path `["value"]`, even when
    the caller supplied a path (6) — the correction. Composite nodes attach
    their own path context only to an error that carries none and never
    overwrite an inner path: since every raised error carries a path, a
    failing child's error propagates out of an object (7) or array (8) node
    completely unchanged. -/
theorem c8_amended_paths :
    (∀ (s : Schema) (p? : Option RyuPath) (v : Value) (e : RyuError),
      Schema.parse s p? v = .error e → e.code = 1 ∧ e.path.isSome) ∧
    (∀ (opt : Bool) (ss : RyuString) (p? : Option RyuPath) (v : Value) (e : RyuError),
      Schema.parse (.str opt ss) p? v = .error e →
      e.path = some (p?.getD [Seg.s "value"])) ∧
    (∀ (opt : Bool) (ns : RyuNum) (p? : Option RyuPath) (v : Value) (e : RyuError),
      Schema.parse (.num opt ns) p? v = .error e →
      e.path = some (p?.getD [Seg.s "value"])) ∧
    (∀ (opt : Bool) (bs : RyuBool) (p? : Option RyuPath) (v : Value) (e : RyuError),
      Schema.parse (.bool opt bs) p? v = .error e →
      e.path = some (p?.getD [])) ∧
    (∀ (elem : Option Schema) (msg : String) (p? : Option RyuPath) (v : Value),
      v.isArr = false →
      Schema.parse (.arr false elem msg) p? v = .error (err1 msg (p?.getD []))) ∧
    (∀ (opt : Bool) (shape : List (String × Schema)) (p? : Option RyuPath) (v : Value),
      v.isObjectLike = false →
      Schema.parse (.obj opt shape) p? v =
        .error ⟨1, "Expected object", some [Seg.s "value"], some errStack⟩) ∧
    (∀ (opt : Bool) (pre : List (String × Schema)) (key : String) (sch : Schema)
      (rest : List (String × Schema)) (p : RyuPath) (v : Value)
      (fs : List (String × Value)) (e : RyuError),
      v.isObjectLike = true →
      parseShape pre p v = .ok fs →
      Schema.parse sch (some (p ++ [Seg.s key])) (getField v key) = .error e →
      Schema.parse (.obj opt (pre ++ (key, sch) :: rest)) (some p) v = .error e) ∧
    (∀ (sch : Schema) (msg : String) (p : RyuPath) (l1 : List Value) (w : Value)
      (l2 : List Value) (r1 : List Value) (e : RyuError),
      parseElems sch p 0 l1 = .ok r1 →
      Schema.parse sch (some (p ++ [Seg.i l1.length])) w = .error e →
      Schema.parse (.arr false (some sch) msg) (some p) (.arr (l1 ++ w :: l2)) =
        .error e) := by
  refine ⟨parse_error_shape, ?_, ?_, ?_, ?_, ?_, ?_, ?_⟩
  · intro opt ss p? v e h
    simp only [Schema.parse] at h
    cases h1 : RyuString.parse ss (p?.getD [Seg.s "value"]) v with
    | error e1 =>
        rw [h1] at h; simp only [Except.map, Except.error.injEq] at h
        rw [← h, ryuString_parse_error_eq ss _ v e1 h1]; rfl
    | ok w => rw [h1] at h; simp [Except.map] at h
  · intro opt ns p? v e h
    simp only [Schema.parse] at h
    cases h1 : RyuNum.parse ns (p?.getD [Seg.s "value"]) v with
    | error e1 =>
        rw [h1] at h; simp only [Except.map, Except.error.injEq] at h
        rw [← h, ryuNum_parse_error_eq ns _ v e1 h1]; rfl
    | ok w => rw [h1] at h; simp [Except.map] at h
  · intro opt bs p? v e h
    simp only [Schema.parse] at h
    cases hn : (opt && v.isNullish) with
    | true => rw [hn] at h; simp at h
    | false =>
        rw [hn] at h; simp only [Bool.false_eq_true, if_false] at h
        cases h1 : RyuBool.internalParse bs (p?.getD []) v with
        | error e1 =>
            rw [h1] at h; simp only [Except.map, Except.error.injEq] at h
            rw [← h, ryuBool_internalParse_error_eq bs _ v e1 h1]; rfl
        | ok w => rw [h1] at h; simp [Except.map] at h
  · intro elem msg p? v hv
    cases v with
    | arr l => simp [Value.isArr] at hv
    | undefined => rw [Schema.parse.eq_def]; simp [Value.isNullish]
    | null => rw [Schema.parse.eq_def]; simp [Value.isNullish]
    | bool b => rw [Schema.parse.eq_def]; simp [Value.isNullish]
    | num n => rw [Schema.parse.eq_def]; simp [Value.isNullish]
    | str s => rw [Schema.parse.eq_def]; simp [Value.isNullish]
    | obj fs => rw [Schema.parse.eq_def]; simp [Value.isNullish]
  · intro opt shape p? v hv
    simp only [Schema.parse, hv, Bool.false_eq_true, if_false]
  · intro opt pre key sch rest p v fs e hv h1 h2
    have hsome := (parse_error_shape sch (some (p ++ [Seg.s key])) (getField v key) e h2).2
    simp only [Schema.parse, hv, if_true, Option.getD_some]
    rw [parseShape_first_error pre key sch rest p v fs e h1 h2,
      fillPath_of_isSome e _ hsome]
    rfl
  · intro sch msg p l1 w l2 r1 e h1 h2
    have hsome := (parse_error_shape sch (some (p ++ [Seg.i l1.length])) w e h2).2
    rw [Schema.parse.eq_def]
    simp only [Bool.false_and, Bool.false_eq_true, if_false, Option.getD_some]
    rw [parseElems_first_error sch p l1 w l2 r1 e h1 h2,
      fillPath_of_isSome e _ hsome]
    rfl

/-- Witness for C8 (amended): the object type failure on input `7` with
    supplied path `["z"]` carries the fixed path `["value"]`. -/
theorem c8_amended_paths_witness :
    Schema.parse (.obj false []) (some [Seg.s "z"]) (.num 7) =
      .error ⟨1, "Expected object", some [Seg.s "value"], some errStack⟩ :=
  c8_amended_paths.2.2.2.2.2.1 false [] (some [Seg.s "z"]) (.num 7) rfl
